import Mathlib

/-!
Verification of the per-user sliding-window rate limiter of the AI-Courtroom
backend (`app/utils/rate_limiter.py` and `app/models/rate_limit.py`).

Modelling conventions:
* Wall-clock time is measured in seconds as a rational number.
* A Python `datetime` is a `DTime`: a wall-clock reading `wall` together with
  an optional timezone offset `tz` (in seconds east of UTC); `tz = none` is a
  naive datetime.  The absolute instant of an aware datetime is
  `wall - offset`; MongoDB stores and compares absolute instants, treating
  naive values as UTC, which is what `instant` computes.
* The MongoDB collection `rate_limit_entries` is a `List RateLimitEntry`;
  `insert` appends, a filtered `delete` is a `List.filter`.
* Each limiter operation takes the current absolute instant `now : ℚ` (the
  moment `get_current_datetime()` is sampled) and the current collection, and
  returns its result together with the updated collection.
* A raised `HTTPException(status_code, detail)` and the `ValueError` raised by
  `min` on an empty sequence become the `Except.error` values of `LimiterError`.
* `requests` and `window` are integer configuration values in the source;
  `window` is modelled as a rational so that window arithmetic lives in the
  same ordered field as time.
-/

namespace AICourtroom

attribute [local semireducible] Rat.add Rat.sub Rat.mul Rat.inv

deriving instance DecidableEq for Except

/-- A Python `datetime`: wall-clock seconds plus optional UTC offset. -/
structure DTime where
  wall : ℚ
  tz : Option ℚ
deriving DecidableEq, Repr

/-- The fixed application zone offset: IST (Asia/Kolkata), +05:30 = 19800 s. -/
def IST_OFFSET : ℚ := 19800

/-- Absolute instant of a datetime; a naive value is read as UTC, exactly as
MongoDB stores it and as `ensure_ist_timezone` assumes. -/
def instant (d : DTime) : ℚ := d.wall - d.tz.getD 0

/-- `get_current_datetime()` from `app/utils/datetime.py`: the current moment
as an aware IST datetime (`datetime.now(Asia/Kolkata)`). -/
def get_current_datetime (now : ℚ) : DTime :=
  ⟨now + IST_OFFSET, some IST_OFFSET⟩

/-- `ensure_ist_timezone` from `app/utils/rate_limiter.py`: a naive datetime is
localized as UTC, then the (now aware) value is converted to IST. -/
def ensure_ist_timezone (d : DTime) : DTime :=
  ⟨instant d + IST_OFFSET, some IST_OFFSET⟩

/-- `dt + timedelta(seconds = s)`: adds to the wall clock, keeps the zone. -/
def addSeconds (d : DTime) (s : ℚ) : DTime :=
  ⟨d.wall + s, d.tz⟩

/-- The Beanie document `RateLimitEntry` (`app/models/rate_limit.py`).
`expiration_time` is declared `Optional` in the model but every inserted entry
carries one, so it is modelled as present. -/
structure RateLimitEntry where
  user_id : String
  timestamp : DTime
  rate_limiter_type : String
  expiration_time : DTime
deriving DecidableEq, Repr

/-- The `RateLimiter` configuration fixed at construction. -/
structure RateLimiter where
  requests : ℕ
  window : ℚ
  rate_limiter_type : String

/-- The find filter `user_id == uid && rate_limiter_type == rl.rate_limiter_type`
shared by every query of the limiter. -/
def matchesB (rl : RateLimiter) (uid : String) (e : RateLimitEntry) : Bool :=
  e.user_id == uid && e.rate_limiter_type == rl.rate_limiter_type

/-- The purge condition `expiration_time <= now`, compared as MongoDB compares
stored datetimes: on absolute instants. -/
def isExpiredAt (e : RateLimitEntry) (nowDT : DTime) : Bool :=
  decide (instant e.expiration_time ≤ instant nowDT)

/-- The delete query run first by every checking path:
`find(user_id, rate_limiter_type, expiration_time <= now).delete()`. -/
def purgeDb (rl : RateLimiter) (uid : String) (nowDT : DTime)
    (db : List RateLimitEntry) : List RateLimitEntry :=
  db.filter (fun e => !(matchesB rl uid e && isExpiredAt e nowDT))

/-- The find query `find(user_id, rate_limiter_type).to_list()`. -/
def pairEntries (rl : RateLimiter) (uid : String)
    (db : List RateLimitEntry) : List RateLimitEntry :=
  db.filter (matchesB rl uid)

/-- `min(entries, key = lambda entry: entry.timestamp)` on a nonempty list:
returns the first entry with minimal timestamp. -/
def oldestEntry (e : RateLimitEntry) (es : List RateLimitEntry) : RateLimitEntry :=
  es.foldl (fun b x => if instant x.timestamp < instant b.timestamp then x else b) e

/-- `(ensure_ist_timezone(ts) + timedelta(seconds = window) - now).total_seconds()`,
the wait-time subtraction shared by all three checking paths. -/
def time_until_reset (rl : RateLimiter) (ts : DTime) (nowDT : DTime) : ℚ :=
  instant (addSeconds (ensure_ist_timezone ts) rl.window) - instant nowDT

/-- The hours/minutes/seconds rendering of the wait time:
`divmod(t, 3600)`, `divmod(remainder, 60)`, then the conditional f-string. -/
def formatDuration (t : ℚ) : String :=
  let hours : ℤ := ⌊t / 3600⌋
  let remainder : ℚ := t - 3600 * hours
  let minutes : ℤ := ⌊remainder / 60⌋
  let seconds : ℚ := remainder - 60 * minutes
  let s1 : String := if 0 < hours then toString hours ++ " hours " else ""
  let s2 : String := if 0 < minutes then s1 ++ toString minutes ++ " minutes " else s1
  s2 ++ toString ⌊seconds⌋ ++ " seconds"

/-- The exceptions a limiter call can raise: the `HTTPException` carrying an
HTTP status and a detail message, and the `ValueError` that `min` raises on an
empty sequence. -/
inductive LimiterError where
  | httpException (status_code : ℕ) (detail : String)
  | valueErrorEmptyMin
deriving DecidableEq, Repr

/-- The entry both `register_usage` and `__call__` construct:
`RateLimitEntry(user_id, rate_limiter_type, expiration_time = now + window)`,
with `timestamp` filled by its `default_factory get_current_datetime`. -/
def newEntry (rl : RateLimiter) (uid : String) (now : ℚ) : RateLimitEntry :=
  { user_id := uid
    timestamp := get_current_datetime now
    rate_limiter_type := rl.rate_limiter_type
    expiration_time := addSeconds (get_current_datetime now) rl.window }

/-- `RateLimiter.get_remaining_attempts`: purge, count,
`remaining = max(0, requests - count)`; when `remaining == 0` and entries
remain, also the seconds until the oldest entry leaves the window. -/
def get_remaining_attempts (rl : RateLimiter) (uid : String) (now : ℚ)
    (db : List RateLimitEntry) : (ℕ × Option ℚ) × List RateLimitEntry :=
  let nowDT := get_current_datetime now
  let db1 := purgeDb rl uid nowDT db
  let valid_entries := pairEntries rl uid db1
  let remaining := rl.requests - valid_entries.length
  match valid_entries, remaining with
  | e :: es, 0 =>
      ((0, some (time_until_reset rl (oldestEntry e es).timestamp nowDT)), db1)
  | _, _ => ((remaining, none), db1)

/-- `RateLimiter.check_only`: purge, count, raise 429 when at quota, otherwise
return the user without writing anything. -/
def check_only (rl : RateLimiter) (uid : String) (now : ℚ)
    (db : List RateLimitEntry) : Except LimiterError String × List RateLimitEntry :=
  let nowDT := get_current_datetime now
  let db1 := purgeDb rl uid nowDT db
  let current_entries := pairEntries rl uid db1
  if rl.requests ≤ current_entries.length then
    match current_entries with
    | [] => (Except.error LimiterError.valueErrorEmptyMin, db1)
    | e :: es =>
        let t := time_until_reset rl (oldestEntry e es).timestamp nowDT
        (Except.error (LimiterError.httpException 429
          ("Daily limit reached. You can submit again in "
            ++ formatDuration t ++ ".")), db1)
  else (Except.ok uid, db1)

/-- `RateLimiter.register_usage`: unconditionally insert one new entry. -/
def register_usage (rl : RateLimiter) (uid : String) (now : ℚ)
    (db : List RateLimitEntry) : List RateLimitEntry :=
  db ++ [newEntry rl uid now]

/-- `RateLimiter.__call__`: purge, count, raise 429 when at quota, otherwise
insert one new entry immediately. -/
def call (rl : RateLimiter) (uid : String) (now : ℚ)
    (db : List RateLimitEntry) : Except LimiterError Unit × List RateLimitEntry :=
  let nowDT := get_current_datetime now
  let db1 := purgeDb rl uid nowDT db
  let current_entries := pairEntries rl uid db1
  if rl.requests ≤ current_entries.length then
    match current_entries with
    | [] => (Except.error LimiterError.valueErrorEmptyMin, db1)
    | e :: es =>
        let t := time_until_reset rl (oldestEntry e es).timestamp nowDT
        (Except.error (LimiterError.httpException 429
          ("Daily argument limit reached. You can submit again in "
            ++ formatDuration t ++ ".")), db1)
  else (Except.ok (), db1 ++ [newEntry rl uid now])

/-- Iterate `__call__` over a list of call instants. -/
def guardRun (rl : RateLimiter) (uid : String) :
    List ℚ → List RateLimitEntry → List (Except LimiterError Unit) × List RateLimitEntry
  | [], db => ([], db)
  | t :: ts, db =>
      let step := call rl uid t db
      let rest := guardRun rl uid ts step.2
      (step.1 :: rest.1, rest.2)

/-- Iterate `check_only` over a list of call instants, keeping the store. -/
def checkOnlyRun (rl : RateLimiter) (uid : String) (ts : List ℚ)
    (db : List RateLimitEntry) : List RateLimitEntry :=
  ts.foldl (fun d t => (check_only rl uid t d).2) db

/-- One limiter operation of a given limiter on a given user, tagged with the
instant at which it runs. -/
inductive LimiterOp where
  | opCall (t : ℚ)
  | opCheck (t : ℚ)
  | opRemaining (t : ℚ)
  | opRegister (t : ℚ)
deriving DecidableEq, Repr

/-- Effect of one limiter operation on the store. -/
def applyOp (rl : RateLimiter) (uid : String) (db : List RateLimitEntry) :
    LimiterOp → List RateLimitEntry
  | LimiterOp.opCall t => (call rl uid t db).2
  | LimiterOp.opCheck t => (check_only rl uid t db).2
  | LimiterOp.opRemaining t => (get_remaining_attempts rl uid t db).2
  | LimiterOp.opRegister t => register_usage rl uid t db

/-- Effect of a sequence of limiter operations on the store. -/
def runOps (rl : RateLimiter) (uid : String) (ops : List LimiterOp)
    (db : List RateLimitEntry) : List RateLimitEntry :=
  ops.foldl (applyOp rl uid) db

/-- Whether an operation is a `register_usage`. -/
def isRegisterOp : LimiterOp → Bool
  | LimiterOp.opRegister _ => true
  | _ => false

/-- Number of stored entries of the `(user_id, rate_limiter_type)` pair. -/
def pairCount (rl : RateLimiter) (uid : String) (db : List RateLimitEntry) : ℕ :=
  (pairEntries rl uid db).length

/-- Number of stored entries of the pair not yet expired at instant `t`. -/
def nonExpiredCount (rl : RateLimiter) (uid : String) (t : ℚ)
    (db : List RateLimitEntry) : ℕ :=
  ((pairEntries rl uid db).filter
    (fun e => !isExpiredAt e (get_current_datetime t))).length

/-- Whether a limiter result is the quota-exceeded HTTP 429 rejection. -/
def isQuotaExceeded {α : Type} : Except LimiterError α → Bool
  | Except.error (LimiterError.httpException 429 _) => true
  | _ => false

/-! ### Basic facts about instants and the stored entries -/

theorem instant_get_current_datetime (now : ℚ) :
    instant (get_current_datetime now) = now := by
  simp [instant, get_current_datetime]

theorem instant_ensure_ist (d : DTime) :
    instant (ensure_ist_timezone d) = instant d := by
  simp [instant, ensure_ist_timezone]

theorem instant_addSeconds (d : DTime) (s : ℚ) :
    instant (addSeconds d s) = instant d + s := by
  simp [instant, addSeconds]; ring

theorem matchesB_newEntry (rl : RateLimiter) (uid : String) (now : ℚ) :
    matchesB rl uid (newEntry rl uid now) = true := by
  simp [matchesB, newEntry]

theorem instant_newEntry_timestamp (rl : RateLimiter) (uid : String) (now : ℚ) :
    instant (newEntry rl uid now).timestamp = now := by
  simp [newEntry, instant_get_current_datetime]

theorem instant_newEntry_expiration (rl : RateLimiter) (uid : String) (now : ℚ) :
    instant (newEntry rl uid now).expiration_time = now + rl.window := by
  simp [newEntry, instant_addSeconds, instant_get_current_datetime]

theorem isExpiredAt_get_current (e : RateLimitEntry) (t : ℚ) :
    isExpiredAt e (get_current_datetime t)
      = decide (instant e.expiration_time ≤ t) := by
  simp [isExpiredAt, instant_get_current_datetime]

theorem time_until_reset_eq (rl : RateLimiter) (ts : DTime) (now : ℚ) :
    time_until_reset rl ts (get_current_datetime now)
      = instant ts + rl.window - now := by
  simp [time_until_reset, instant_addSeconds, instant_ensure_ist,
    instant_get_current_datetime]

/-! ### Interplay of the pair filter and the purge filter -/

theorem pairEntries_purge (rl : RateLimiter) (uid : String) (T : DTime)
    (db : List RateLimitEntry) :
    pairEntries rl uid (purgeDb rl uid T db)
      = (pairEntries rl uid db).filter (fun e => !isExpiredAt e T) := by
  unfold pairEntries purgeDb
  rw [List.filter_filter, List.filter_filter]
  apply List.filter_congr
  intro x _
  cases h1 : matchesB rl uid x <;> cases h2 : isExpiredAt x T <;> simp [h1, h2]

theorem pairEntries_append (rl : RateLimiter) (uid : String)
    (db l : List RateLimitEntry) :
    pairEntries rl uid (db ++ l) = pairEntries rl uid db ++ pairEntries rl uid l :=
  List.filter_append db l

theorem pairCount_purge_le (rl : RateLimiter) (uid : String) (T : DTime)
    (db : List RateLimitEntry) :
    pairCount rl uid (purgeDb rl uid T db) ≤ pairCount rl uid db := by
  unfold pairCount
  rw [pairEntries_purge]
  exact List.length_filter_le _ _

theorem purgeDb_purgeDb (rl : RateLimiter) (uid : String) (s t : ℚ)
    (hst : s ≤ t) (db : List RateLimitEntry) :
    purgeDb rl uid (get_current_datetime t)
        (purgeDb rl uid (get_current_datetime s) db)
      = purgeDb rl uid (get_current_datetime t) db := by
  unfold purgeDb
  rw [List.filter_filter]
  apply List.filter_congr
  intro x _
  cases h1 : matchesB rl uid x
  · simp [h1]
  · simp only [h1, true_and, Bool.not_and, Bool.true_and]
    rw [isExpiredAt_get_current, isExpiredAt_get_current]
    by_cases ht : instant x.expiration_time ≤ t
    · simp [ht]
    · have hs : ¬ instant x.expiration_time ≤ s := fun h => ht (le_trans h hst)
      simp [ht, hs]

theorem filter_erase_of_neg {α : Type} [DecidableEq α] {p : α → Bool} {a : α}
    (ha : p a = false) (l : List α) :
    (l.erase a).filter p = l.filter p := by
  induction l with
  | nil => simp
  | cons x xs ih =>
      by_cases hx : x = a
      · subst hx
        rw [List.erase_cons_head]
        simp [List.filter_cons, ha]
      · rw [List.erase_cons_tail (by simpa using hx)]
        simp only [List.filter_cons, ih]

theorem length_filter_of_unique_fail {α : Type} [DecidableEq α] {p : α → Bool}
    {l : List α} {a : α} (hnd : l.Nodup) (ha : a ∈ l) (hpa : p a = false)
    (hother : ∀ b ∈ l, b ≠ a → p b = true) :
    (l.filter p).length = l.length - 1 := by
  induction l with
  | nil => cases ha
  | cons x xs ih =>
      rcases List.mem_cons.mp ha with rfl | hmem
      · have hxs : xs.filter p = xs := by
          apply List.filter_eq_self.mpr
          intro b hb
          exact hother b (List.mem_cons_of_mem _ hb)
            (fun hba => (List.nodup_cons.mp hnd).1 (hba ▸ hb))
        simp [List.filter_cons, hpa, hxs]
      · have hxa : x ≠ a := fun hxa => (List.nodup_cons.mp hnd).1 (hxa ▸ hmem)
        have hx : p x = true := hother x (List.mem_cons_self x xs) hxa
        have hlen : 0 < xs.length := List.length_pos.mpr (List.ne_nil_of_mem hmem)
        have := ih (List.nodup_cons.mp hnd).2 hmem
          (fun b hb hne => hother b (List.mem_cons_of_mem _ hb) hne)
        simp only [List.filter_cons, hx, if_pos, List.length_cons, this]
        omega

/-! ### The first minimum taken by `min(entries, key = timestamp)` -/

theorem oldestEntry_mem : ∀ (es : List RateLimitEntry) (e : RateLimitEntry),
    oldestEntry e es ∈ e :: es := by
  intro es
  induction es with
  | nil => intro e; simp [oldestEntry]
  | cons x xs ih =>
      intro e
      have hrec : oldestEntry e (x :: xs)
          = oldestEntry (if instant x.timestamp < instant e.timestamp then x else e) xs := rfl
      rw [hrec]
      rcases List.mem_cons.mp (ih (if instant x.timestamp < instant e.timestamp then x else e)) with h | h
      · rw [h]
        split
        · exact List.mem_cons_of_mem _ (List.mem_cons_self _ _)
        · exact List.mem_cons_self _ _
      · exact List.mem_cons_of_mem _ (List.mem_cons_of_mem _ h)

theorem oldestEntry_min : ∀ (es : List RateLimitEntry) (e x : RateLimitEntry),
    x ∈ e :: es →
    instant (oldestEntry e es).timestamp ≤ instant x.timestamp := by
  intro es
  induction es with
  | nil =>
      intro e x hx
      rcases List.mem_cons.mp hx with rfl | h
      · exact le_refl _
      · cases h
  | cons y ys ih =>
      intro e x hx
      have hrec : oldestEntry e (y :: ys)
          = oldestEntry (if instant y.timestamp < instant e.timestamp then y else e) ys := rfl
      have hfe : instant (if instant y.timestamp < instant e.timestamp then y else e).timestamp
          ≤ instant e.timestamp := by
        split
        · next hlt => exact le_of_lt hlt
        · exact le_refl _
      have hfy : instant (if instant y.timestamp < instant e.timestamp then y else e).timestamp
          ≤ instant y.timestamp := by
        split
        · exact le_refl _
        · next hlt => exact le_of_not_lt hlt
      have hbase := ih (if instant y.timestamp < instant e.timestamp then y else e)
        _ (List.mem_cons_self _ _)
      rcases List.mem_cons.mp hx with rfl | hx2
      · rw [hrec]; exact le_trans hbase hfe
      · rcases List.mem_cons.mp hx2 with rfl | hx3
        · rw [hrec]; exact le_trans hbase hfy
        · rw [hrec]; exact ih _ _ (List.mem_cons_of_mem _ hx3)

/-! ### Branch characterizations of the limiter operations -/

theorem check_only_snd (rl : RateLimiter) (uid : String) (now : ℚ)
    (db : List RateLimitEntry) :
    (check_only rl uid now db).2 = purgeDb rl uid (get_current_datetime now) db := by
  simp only [check_only]
  split
  · split <;> rfl
  · rfl

theorem get_remaining_snd (rl : RateLimiter) (uid : String) (now : ℚ)
    (db : List RateLimitEntry) :
    (get_remaining_attempts rl uid now db).2
      = purgeDb rl uid (get_current_datetime now) db := by
  simp only [get_remaining_attempts]
  split <;> rfl

theorem call_of_lt (rl : RateLimiter) (uid : String) (now : ℚ)
    (db : List RateLimitEntry)
    (h : (pairEntries rl uid (purgeDb rl uid (get_current_datetime now) db)).length
        < rl.requests) :
    call rl uid now db
      = (Except.ok (),
         purgeDb rl uid (get_current_datetime now) db ++ [newEntry rl uid now]) := by
  simp only [call]
  rw [if_neg (not_le.mpr h)]

theorem call_of_ge (rl : RateLimiter) (uid : String) (now : ℚ)
    (db : List RateLimitEntry) (e : RateLimitEntry) (es : List RateLimitEntry)
    (hv : pairEntries rl uid (purgeDb rl uid (get_current_datetime now) db) = e :: es)
    (h : rl.requests ≤ es.length + 1) :
    call rl uid now db
      = (Except.error (LimiterError.httpException 429
          ("Daily argument limit reached. You can submit again in "
            ++ formatDuration (time_until_reset rl (oldestEntry e es).timestamp
                  (get_current_datetime now)) ++ ".")),
         purgeDb rl uid (get_current_datetime now) db) := by
  simp only [call, hv]
  rw [if_pos (by simpa using h)]

theorem check_only_of_lt (rl : RateLimiter) (uid : String) (now : ℚ)
    (db : List RateLimitEntry)
    (h : (pairEntries rl uid (purgeDb rl uid (get_current_datetime now) db)).length
        < rl.requests) :
    check_only rl uid now db
      = (Except.ok uid, purgeDb rl uid (get_current_datetime now) db) := by
  simp only [check_only]
  rw [if_neg (not_le.mpr h)]

theorem check_only_of_ge (rl : RateLimiter) (uid : String) (now : ℚ)
    (db : List RateLimitEntry) (e : RateLimitEntry) (es : List RateLimitEntry)
    (hv : pairEntries rl uid (purgeDb rl uid (get_current_datetime now) db) = e :: es)
    (h : rl.requests ≤ es.length + 1) :
    check_only rl uid now db
      = (Except.error (LimiterError.httpException 429
          ("Daily limit reached. You can submit again in "
            ++ formatDuration (time_until_reset rl (oldestEntry e es).timestamp
                  (get_current_datetime now)) ++ ".")),
         purgeDb rl uid (get_current_datetime now) db) := by
  simp only [check_only, hv]
  rw [if_pos (by simpa using h)]

theorem get_remaining_of_pos (rl : RateLimiter) (uid : String) (now : ℚ)
    (db : List RateLimitEntry)
    (h : 0 < rl.requests
        - (pairEntries rl uid (purgeDb rl uid (get_current_datetime now) db)).length) :
    get_remaining_attempts rl uid now db
      = ((rl.requests
            - (pairEntries rl uid (purgeDb rl uid (get_current_datetime now) db)).length,
          none),
         purgeDb rl uid (get_current_datetime now) db) := by
  simp only [get_remaining_attempts]
  rcases hv : pairEntries rl uid (purgeDb rl uid (get_current_datetime now) db)
      with _ | ⟨e, es⟩
  · simp [hv]
  · rw [hv] at h
    rcases hk : rl.requests - (e :: es).length with _ | k
    · omega
    · simp [hv, hk]

theorem get_remaining_of_zero (rl : RateLimiter) (uid : String) (now : ℚ)
    (db : List RateLimitEntry) (e : RateLimitEntry) (es : List RateLimitEntry)
    (hv : pairEntries rl uid (purgeDb rl uid (get_current_datetime now) db) = e :: es)
    (h : rl.requests - (es.length + 1) = 0) :
    get_remaining_attempts rl uid now db
      = ((0, some (time_until_reset rl (oldestEntry e es).timestamp
            (get_current_datetime now))),
         purgeDb rl uid (get_current_datetime now) db) := by
  simp only [get_remaining_attempts, hv, List.length_cons]
  rw [h]

/-! ### Congruence: what each result is a function of -/

theorem get_remaining_fst_of_purge_eq (rl : RateLimiter) (uid : String) (now : ℚ)
    (db1 db2 : List RateLimitEntry)
    (h : purgeDb rl uid (get_current_datetime now) db1
        = purgeDb rl uid (get_current_datetime now) db2) :
    (get_remaining_attempts rl uid now db1).1
      = (get_remaining_attempts rl uid now db2).1 := by
  simp only [get_remaining_attempts, h]

theorem get_remaining_fst_of_pair_eq (rl : RateLimiter) (uid : String) (now : ℚ)
    (db1 db2 : List RateLimitEntry)
    (h : pairEntries rl uid db1 = pairEntries rl uid db2) :
    (get_remaining_attempts rl uid now db1).1
      = (get_remaining_attempts rl uid now db2).1 := by
  simp only [get_remaining_attempts]
  rw [pairEntries_purge, pairEntries_purge, h]
  cases hl : (pairEntries rl uid db2).filter
      (fun e => !isExpiredAt e (get_current_datetime now)) with
  | nil => simp [hl]
  | cons e es =>
      rcases hk : rl.requests - (e :: es).length with _ | k <;> simp [hl, hk]

theorem check_only_fst_of_pair_eq (rl : RateLimiter) (uid : String) (now : ℚ)
    (db1 db2 : List RateLimitEntry)
    (h : pairEntries rl uid db1 = pairEntries rl uid db2) :
    (check_only rl uid now db1).1 = (check_only rl uid now db2).1 := by
  simp only [check_only]
  rw [pairEntries_purge, pairEntries_purge, h]
  split_ifs with hc
  · cases hl : (pairEntries rl uid db2).filter
        (fun e => !isExpiredAt e (get_current_datetime now)) with
    | nil => simp [hl]
    | cons e es => simp [hl]
  · rfl

theorem call_fst_of_pair_eq (rl : RateLimiter) (uid : String) (now : ℚ)
    (db1 db2 : List RateLimitEntry)
    (h : pairEntries rl uid db1 = pairEntries rl uid db2) :
    (call rl uid now db1).1 = (call rl uid now db2).1 := by
  simp only [call]
  rw [pairEntries_purge, pairEntries_purge, h]
  split_ifs with hc
  · cases hl : (pairEntries rl uid db2).filter
        (fun e => !isExpiredAt e (get_current_datetime now)) with
    | nil => simp [hl]
    | cons e es => simp [hl]
  · rfl

/-! ### Step and run lemmas for the accepted path -/

theorem pairEntries_purge_of_fresh (rl : RateLimiter) (uid : String) (t : ℚ)
    (db : List RateLimitEntry)
    (hall : ∀ e ∈ pairEntries rl uid db, t < instant e.expiration_time) :
    pairEntries rl uid (purgeDb rl uid (get_current_datetime t) db)
      = pairEntries rl uid db := by
  rw [pairEntries_purge]
  apply List.filter_eq_self.mpr
  intro e he
  rw [isExpiredAt_get_current]
  simp only [Bool.not_eq_eq_eq_not, Bool.not_true]
  exact decide_eq_false (not_le.mpr (hall e he))

theorem call_step_ok (rl : RateLimiter) (uid : String) (t : ℚ)
    (db : List RateLimitEntry)
    (hall : ∀ e ∈ pairEntries rl uid db, t < instant e.expiration_time)
    (hc : (pairEntries rl uid db).length < rl.requests) :
    call rl uid t db
      = (Except.ok (),
         purgeDb rl uid (get_current_datetime t) db ++ [newEntry rl uid t])
    ∧ pairEntries rl uid (call rl uid t db).2
        = pairEntries rl uid db ++ [newEntry rl uid t] := by
  have hpp := pairEntries_purge_of_fresh rl uid t db hall
  have hcall := call_of_lt rl uid t db (by rw [hpp]; exact hc)
  refine ⟨hcall, ?_⟩
  rw [hcall]
  show pairEntries rl uid (purgeDb rl uid (get_current_datetime t) db
      ++ [newEntry rl uid t]) = _
  rw [pairEntries_append, hpp]
  simp [pairEntries, List.filter, matchesB_newEntry]

theorem guardRun_cons (rl : RateLimiter) (uid : String) (t : ℚ) (ts : List ℚ)
    (db : List RateLimitEntry) :
    guardRun rl uid (t :: ts) db
      = ((call rl uid t db).1 :: (guardRun rl uid ts (call rl uid t db).2).1,
         (guardRun rl uid ts (call rl uid t db).2).2) := rfl

theorem guardRun_all_ok (rl : RateLimiter) (uid : String) (tmax : ℚ) :
    ∀ (ts : List ℚ) (db : List RateLimitEntry),
    (∀ s ∈ ts, s ≤ tmax ∧ tmax < s + rl.window) →
    (∀ e ∈ pairEntries rl uid db, tmax < instant e.expiration_time) →
    (pairEntries rl uid db).length + ts.length ≤ rl.requests →
    (guardRun rl uid ts db).1 = List.replicate ts.length (Except.ok ())
    ∧ (pairEntries rl uid (guardRun rl uid ts db).2).length
        = (pairEntries rl uid db).length + ts.length
    ∧ (∀ e ∈ pairEntries rl uid (guardRun rl uid ts db).2,
        tmax < instant e.expiration_time) := by
  intro ts
  induction ts with
  | nil =>
      intro db _ hall _
      exact ⟨rfl, by simp [guardRun], hall⟩
  | cons t ts ih =>
      intro db hspan hall hle
      obtain ⟨ht, hw⟩ := hspan t (List.mem_cons_self _ _)
      have hallt : ∀ e ∈ pairEntries rl uid db, t < instant e.expiration_time :=
        fun e he => lt_of_le_of_lt ht (hall e he)
      have hc : (pairEntries rl uid db).length < rl.requests := by
        simp only [List.length_cons] at hle; omega
      obtain ⟨hcall, hpair⟩ := call_step_ok rl uid t db hallt hc
      have hall2 : ∀ e ∈ pairEntries rl uid (call rl uid t db).2,
          tmax < instant e.expiration_time := by
        rw [hpair]
        intro e he
        rcases List.mem_append.mp he with h1 | h1
        · exact hall e h1
        · rw [List.mem_singleton.mp h1, instant_newEntry_expiration]
          linarith
      have hlen2 : (pairEntries rl uid (call rl uid t db).2).length
          = (pairEntries rl uid db).length + 1 := by
        rw [hpair]; simp
      obtain ⟨h1, h2, h3⟩ := ih (call rl uid t db).2
        (fun s hs => hspan s (List.mem_cons_of_mem _ hs))
        hall2
        (by rw [hlen2]; simp only [List.length_cons] at hle; omega)
      rw [guardRun_cons]
      refine ⟨?_, ?_, h3⟩
      · rw [hcall] at h1 ⊢
        simp only [h1, List.length_cons, List.replicate_succ]
      · rw [h2, hlen2]
        simp only [List.length_cons]
        omega

theorem guardRun_quota (rl : RateLimiter) (uid : String) (tmax : ℚ)
    (hreq : 1 ≤ rl.requests) :
    ∀ (ts : List ℚ) (db : List RateLimitEntry),
    (∀ s ∈ ts, s ≤ tmax ∧ tmax < s + rl.window) →
    (∀ e ∈ pairEntries rl uid db, tmax < instant e.expiration_time) →
    (pairEntries rl uid db).length ≤ rl.requests →
    (pairEntries rl uid db).length + ts.length = rl.requests + 1 →
    ∃ d, (guardRun rl uid ts db).1
      = List.replicate (rl.requests - (pairEntries rl uid db).length)
          (Except.ok ())
        ++ [Except.error (LimiterError.httpException 429 d)] := by
  intro ts
  induction ts with
  | nil =>
      intro db _ _ hle heq
      simp only [List.length_nil] at heq
      omega
  | cons t ts ih =>
      intro db hspan hall hle heq
      obtain ⟨ht, hw⟩ := hspan t (List.mem_cons_self _ _)
      have hallt : ∀ e ∈ pairEntries rl uid db, t < instant e.expiration_time :=
        fun e he => lt_of_le_of_lt ht (hall e he)
      by_cases hc : (pairEntries rl uid db).length < rl.requests
      · obtain ⟨hcall, hpair⟩ := call_step_ok rl uid t db hallt hc
        have hall2 : ∀ e ∈ pairEntries rl uid (call rl uid t db).2,
            tmax < instant e.expiration_time := by
          rw [hpair]
          intro e he
          rcases List.mem_append.mp he with h1 | h1
          · exact hall e h1
          · rw [List.mem_singleton.mp h1, instant_newEntry_expiration]
            linarith
        have hlen2 : (pairEntries rl uid (call rl uid t db).2).length
            = (pairEntries rl uid db).length + 1 := by
          rw [hpair]; simp
        obtain ⟨d, hd⟩ := ih (call rl uid t db).2
          (fun s hs => hspan s (List.mem_cons_of_mem _ hs))
          hall2
          (by rw [hlen2]; omega)
          (by rw [hlen2]; simp only [List.length_cons] at heq; omega)
        refine ⟨d, ?_⟩
        rw [guardRun_cons, hd, hlen2, hcall]
        have hsub : rl.requests - (pairEntries rl uid db).length
            = (rl.requests - ((pairEntries rl uid db).length + 1)) + 1 := by omega
        rw [hsub, List.replicate_succ]
        rfl
      · have hceq : (pairEntries rl uid db).length = rl.requests := by omega
        have htsnil : ts = [] := by
          apply List.length_eq_zero.mp
          simp only [List.length_cons] at heq
          omega
        subst htsnil
        have hpp := pairEntries_purge_of_fresh rl uid t db hallt
        cases hv : pairEntries rl uid db with
        | nil => rw [hv] at hceq; simp at hceq; omega
        | cons e es =>
            have hlen : rl.requests ≤ es.length + 1 := by
              rw [hv] at hceq; simp at hceq; omega
            have hfail := call_of_ge rl uid t db e es (by rw [hpp, hv]) hlen
            refine ⟨"Daily argument limit reached. You can submit again in "
              ++ formatDuration (time_until_reset rl (oldestEntry e es).timestamp
                    (get_current_datetime t)) ++ ".", ?_⟩
            rw [guardRun_cons, hfail]
            have h0 : rl.requests - (e :: es).length = 0 := by
              rw [hv] at hceq
              simp only [List.length_cons] at hceq ⊢
              omega
            rw [h0]
            simp [guardRun]

theorem checkOnlyRun_cons (rl : RateLimiter) (uid : String) (s : ℚ) (ss : List ℚ)
    (db : List RateLimitEntry) :
    checkOnlyRun rl uid (s :: ss) db
      = checkOnlyRun rl uid ss (check_only rl uid s db).2 := rfl

theorem checkOnlyRun_purge (rl : RateLimiter) (uid : String) (t : ℚ) :
    ∀ (ts : List ℚ) (db : List RateLimitEntry), (∀ s ∈ ts, s ≤ t) →
    purgeDb rl uid (get_current_datetime t) (checkOnlyRun rl uid ts db)
      = purgeDb rl uid (get_current_datetime t) db := by
  intro ts
  induction ts with
  | nil => intro db _; rfl
  | cons s ss ih =>
      intro db hs
      rw [checkOnlyRun_cons, check_only_snd,
        ih _ (fun x hx => hs x (List.mem_cons_of_mem _ hx)),
        purgeDb_purgeDb rl uid s t (hs s (List.mem_cons_self _ _)) db]

/-! ### Degenerate branch, store cases, and cross-type frame lemmas -/

theorem call_of_empty (rl : RateLimiter) (uid : String) (now : ℚ)
    (db : List RateLimitEntry)
    (hv : pairEntries rl uid (purgeDb rl uid (get_current_datetime now) db) = [])
    (h : rl.requests = 0) :
    call rl uid now db
      = (Except.error LimiterError.valueErrorEmptyMin,
         purgeDb rl uid (get_current_datetime now) db) := by
  simp only [call, hv, h]
  rfl

theorem check_only_of_empty (rl : RateLimiter) (uid : String) (now : ℚ)
    (db : List RateLimitEntry)
    (hv : pairEntries rl uid (purgeDb rl uid (get_current_datetime now) db) = [])
    (h : rl.requests = 0) :
    check_only rl uid now db
      = (Except.error LimiterError.valueErrorEmptyMin,
         purgeDb rl uid (get_current_datetime now) db) := by
  simp only [check_only, hv, h]
  rfl

theorem call_snd_cases (rl : RateLimiter) (uid : String) (t : ℚ)
    (db : List RateLimitEntry) :
    (call rl uid t db).2 = purgeDb rl uid (get_current_datetime t) db
    ∨ ((call rl uid t db).2
          = purgeDb rl uid (get_current_datetime t) db ++ [newEntry rl uid t]
        ∧ (pairEntries rl uid (purgeDb rl uid (get_current_datetime t) db)).length
            < rl.requests) := by
  by_cases hge : rl.requests
      ≤ (pairEntries rl uid (purgeDb rl uid (get_current_datetime t) db)).length
  · left
    cases hv : pairEntries rl uid (purgeDb rl uid (get_current_datetime t) db) with
    | nil =>
        have h0 : rl.requests = 0 := by rw [hv] at hge; simpa using hge
        rw [call_of_empty rl uid t db hv h0]
    | cons e es =>
        rw [call_of_ge rl uid t db e es hv (by rw [hv] at hge; simpa using hge)]
  · right
    rw [call_of_lt rl uid t db (not_le.mp hge)]
    exact ⟨rfl, not_le.mp hge⟩

theorem check_only_fst_of_purge_eq (rl : RateLimiter) (uid : String) (now : ℚ)
    (db1 db2 : List RateLimitEntry)
    (h : purgeDb rl uid (get_current_datetime now) db1
        = purgeDb rl uid (get_current_datetime now) db2) :
    (check_only rl uid now db1).1 = (check_only rl uid now db2).1 := by
  simp only [check_only, h]

theorem call_fst_of_purge_eq (rl : RateLimiter) (uid : String) (now : ℚ)
    (db1 db2 : List RateLimitEntry)
    (h : purgeDb rl uid (get_current_datetime now) db1
        = purgeDb rl uid (get_current_datetime now) db2) :
    (call rl uid now db1).1 = (call rl uid now db2).1 := by
  simp only [call, h]

theorem matchesB_of_other_type (rl rl2 : RateLimiter) (uid uid2 : String)
    (x : RateLimitEntry) (hty : rl2.rate_limiter_type ≠ rl.rate_limiter_type)
    (h2 : matchesB rl2 uid2 x = true) :
    matchesB rl uid x = false := by
  simp only [matchesB, Bool.and_eq_true, beq_iff_eq] at h2
  simp only [matchesB, Bool.and_eq_false_iff, beq_eq_false_iff_ne, ne_eq]
  right
  rw [h2.2]
  exact hty

theorem pairEntries_purge_other (rl rl2 : RateLimiter) (uid uid2 : String)
    (T : DTime) (db : List RateLimitEntry)
    (hty : rl2.rate_limiter_type ≠ rl.rate_limiter_type) :
    pairEntries rl2 uid2 (purgeDb rl uid T db) = pairEntries rl2 uid2 db := by
  unfold pairEntries purgeDb
  rw [List.filter_filter]
  apply List.filter_congr
  intro x _
  cases h2 : matchesB rl2 uid2 x
  · simp [h2]
  · simp [h2, matchesB_of_other_type rl rl2 uid uid2 x hty h2]

theorem matchesB_newEntry_other (rl rl2 : RateLimiter) (uid uid2 : String)
    (now : ℚ) (hty : rl2.rate_limiter_type ≠ rl.rate_limiter_type) :
    matchesB rl2 uid2 (newEntry rl uid now) = false := by
  simp only [matchesB, newEntry, Bool.and_eq_false_iff, beq_eq_false_iff_ne, ne_eq]
  right
  exact fun h => hty h.symm

theorem pairEntries_append_newEntry_other (rl rl2 : RateLimiter)
    (uid uid2 : String) (now : ℚ) (db : List RateLimitEntry)
    (hty : rl2.rate_limiter_type ≠ rl.rate_limiter_type) :
    pairEntries rl2 uid2 (db ++ [newEntry rl uid now]) = pairEntries rl2 uid2 db := by
  rw [pairEntries_append]
  have h1 : pairEntries rl2 uid2 [newEntry rl uid now] = [] := by
    simp [pairEntries, List.filter,
      matchesB_newEntry_other rl rl2 uid uid2 now hty]
  rw [h1, List.append_nil]

theorem nonExpiredCount_le_pairCount (rl : RateLimiter) (uid : String) (T : ℚ)
    (db : List RateLimitEntry) :
    nonExpiredCount rl uid T db ≤ pairCount rl uid db :=
  List.length_filter_le _ _

theorem applyOp_pairCount_le (rl : RateLimiter) (uid : String)
    (db : List RateLimitEntry) (o : LimiterOp) (ho : isRegisterOp o = false) :
    pairCount rl uid (applyOp rl uid db o)
      ≤ max (pairCount rl uid db) rl.requests := by
  cases o with
  | opCall t =>
      rcases call_snd_cases rl uid t db with h | ⟨h, hlen⟩
      · show pairCount rl uid (call rl uid t db).2 ≤ _
        rw [h]
        exact le_max_of_le_left (pairCount_purge_le rl uid _ db)
      · show pairCount rl uid (call rl uid t db).2 ≤ _
        rw [h]
        apply le_max_of_le_right
        unfold pairCount
        rw [pairEntries_append]
        have h1 : pairEntries rl uid [newEntry rl uid t] = [newEntry rl uid t] := by
          simp [pairEntries, List.filter, matchesB_newEntry]
        rw [h1]
        simp only [List.length_append, List.length_singleton]
        omega
  | opCheck t =>
      show pairCount rl uid (check_only rl uid t db).2 ≤ _
      rw [check_only_snd]
      exact le_max_of_le_left (pairCount_purge_le rl uid _ db)
  | opRemaining t =>
      show pairCount rl uid (get_remaining_attempts rl uid t db).2 ≤ _
      rw [get_remaining_snd]
      exact le_max_of_le_left (pairCount_purge_le rl uid _ db)
  | opRegister t => simp [isRegisterOp] at ho

theorem runOps_pairCount_le (rl : RateLimiter) (uid : String) :
    ∀ (ops : List LimiterOp) (db : List RateLimitEntry),
    (∀ o ∈ ops, isRegisterOp o = false) →
    pairCount rl uid (runOps rl uid ops db)
      ≤ max (pairCount rl uid db) rl.requests := by
  intro ops
  induction ops with
  | nil => intro db _; exact le_max_left _ _
  | cons o os ih =>
      intro db hops
      have h1 : runOps rl uid (o :: os) db = runOps rl uid os (applyOp rl uid db o) := rfl
      rw [h1]
      refine le_trans (ih (applyOp rl uid db o)
        (fun x hx => hops x (List.mem_cons_of_mem _ hx))) ?_
      have h2 := applyOp_pairCount_le rl uid db o (hops o (List.mem_cons_self _ _))
      have h3 := max_le_max h2 (le_refl rl.requests)
      calc max (pairCount rl uid (applyOp rl uid db o)) rl.requests
          ≤ max (max (pairCount rl uid db) rl.requests) rl.requests := h3
        _ = max (pairCount rl uid db) rl.requests := by rw [max_assoc, max_self]

/-! ### Claim theorems -/

/-- C1: a single `RateLimiter.__call__` invocation first purges the expired
entries of the `(user_id, rate_limiter_type)` pair; if the count of remaining
pair entries is at least `requests` it raises the HTTP 429 quota-exceeded
exception whose detail message carries the wait time rendered by the
hours/minutes/seconds formatter, inserting nothing; if the count is below
`requests` it inserts exactly one new entry and succeeds.  Consequently,
starting from a state with no entries for the pair, `requests + 1` calls
within one window-length span yield `requests` successes followed by one
quota-exceeded rejection.  (The quota-exceeded branch requires a quota of at
least one to be well defined; see C10.) -/
theorem C1_guard_quota_enforcement (rl : RateLimiter) (uid : String) (now : ℚ)
    (db : List RateLimitEntry) (hreq : 1 ≤ rl.requests) :
    ((rl.requests
        ≤ (pairEntries rl uid (purgeDb rl uid (get_current_datetime now) db)).length →
      ∃ e es,
        pairEntries rl uid (purgeDb rl uid (get_current_datetime now) db) = e :: es
        ∧ call rl uid now db
          = (Except.error (LimiterError.httpException 429
              ("Daily argument limit reached. You can submit again in "
                ++ formatDuration (time_until_reset rl (oldestEntry e es).timestamp
                      (get_current_datetime now)) ++ ".")),
             purgeDb rl uid (get_current_datetime now) db))
    ∧ ((pairEntries rl uid (purgeDb rl uid (get_current_datetime now) db)).length
          < rl.requests →
      call rl uid now db
        = (Except.ok (),
           purgeDb rl uid (get_current_datetime now) db ++ [newEntry rl uid now])))
    ∧ ∀ (ts : List ℚ) (tmax : ℚ),
        pairEntries rl uid db = [] →
        (∀ s ∈ ts, s ≤ tmax ∧ tmax < s + rl.window) →
        ts.length = rl.requests + 1 →
        ∃ d, (guardRun rl uid ts db).1
          = List.replicate rl.requests (Except.ok ())
            ++ [Except.error (LimiterError.httpException 429 d)] := by
  refine ⟨⟨?_, ?_⟩, ?_⟩
  · intro h
    cases hv : pairEntries rl uid (purgeDb rl uid (get_current_datetime now) db) with
    | nil =>
        rw [hv] at h
        simp only [List.length_nil, Nat.le_zero] at h
        omega
    | cons e es =>
        exact ⟨e, es, rfl,
          call_of_ge rl uid now db e es hv (by rw [hv] at h; simpa using h)⟩
  · exact call_of_lt rl uid now db
  · intro ts tmax hempty hspan hlen
    obtain ⟨d, hd⟩ := guardRun_quota rl uid tmax hreq ts db hspan
      (by rw [hempty]; intro e he; cases he)
      (by rw [hempty]; simp)
      (by rw [hempty, hlen]; simp)
    rw [hempty] at hd
    simp only [List.length_nil, Nat.sub_zero] at hd
    exact ⟨d, hd⟩

/-- C1 witness: with quota 2 and window 10, a call on an empty store at `t = 0`
succeeds and writes exactly one entry. -/
theorem C1_guard_quota_enforcement_witness :
    call ⟨2, 10, "argument_rate_limiter"⟩ "u" 0 []
      = (Except.ok (),
         purgeDb ⟨2, 10, "argument_rate_limiter"⟩ "u" (get_current_datetime 0) []
           ++ [newEntry ⟨2, 10, "argument_rate_limiter"⟩ "u" 0]) :=
  (C1_guard_quota_enforcement ⟨2, 10, "argument_rate_limiter"⟩ "u" 0 []
    (by decide)).1.2 (by decide)

/-- C2 counterexample: with quota 1, three `register_usage` calls at `t = 0`
insert unconditionally; at the moment the third entry is inserted, the pair
already holds 2 non-expired entries, exceeding `requests = 1` — refuting the
claim for sequences containing `register_usage`. -/
theorem C2_counterexample_register_usage_exceeds :
    nonExpiredCount ⟨1, 10, "argument_rate_limiter"⟩ "u" 0
        (register_usage ⟨1, 10, "argument_rate_limiter"⟩ "u" 0
          (register_usage ⟨1, 10, "argument_rate_limiter"⟩ "u" 0 [])) = 2
    ∧ RateLimiter.requests ⟨1, 10, "argument_rate_limiter"⟩
        < nonExpiredCount ⟨1, 10, "argument_rate_limiter"⟩ "u" 0
            (register_usage ⟨1, 10, "argument_rate_limiter"⟩ "u" 0
              (register_usage ⟨1, 10, "argument_rate_limiter"⟩ "u" 0 []))
    ∧ register_usage ⟨1, 10, "argument_rate_limiter"⟩ "u" 0
        (register_usage ⟨1, 10, "argument_rate_limiter"⟩ "u" 0
          (register_usage ⟨1, 10, "argument_rate_limiter"⟩ "u" 0 []))
      = register_usage ⟨1, 10, "argument_rate_limiter"⟩ "u" 0
          (register_usage ⟨1, 10, "argument_rate_limiter"⟩ "u" 0 [])
        ++ [newEntry ⟨1, 10, "argument_rate_limiter"⟩ "u" 0] := by
  refine ⟨by decide, by decide, rfl⟩

/-- C2 (amended): among `__call__`, `check_only` and `get_remaining_attempts`,
only `__call__` ever inserts, and it does so only when the purged pair count is
strictly below `requests`; hence along any operation sequence avoiding
`register_usage` the pair count never exceeds `max initial requests`, and the
non-expired count never exceeds the pair count.  `register_usage` itself
inserts unconditionally and is excluded (see the counterexample). -/
theorem C2_insertion_guarded (rl : RateLimiter) (uid : String) (t : ℚ)
    (db : List RateLimitEntry) :
    ((call rl uid t db).2 = purgeDb rl uid (get_current_datetime t) db
      ∨ ((call rl uid t db).2
            = purgeDb rl uid (get_current_datetime t) db ++ [newEntry rl uid t]
          ∧ (pairEntries rl uid (purgeDb rl uid (get_current_datetime t) db)).length
              < rl.requests))
    ∧ (check_only rl uid t db).2 = purgeDb rl uid (get_current_datetime t) db
    ∧ (get_remaining_attempts rl uid t db).2
        = purgeDb rl uid (get_current_datetime t) db
    ∧ (∀ T, nonExpiredCount rl uid T db ≤ pairCount rl uid db)
    ∧ (∀ ops : List LimiterOp, (∀ o ∈ ops, isRegisterOp o = false) →
        pairCount rl uid (runOps rl uid ops db)
          ≤ max (pairCount rl uid db) rl.requests) :=
  ⟨call_snd_cases rl uid t db,
   check_only_snd rl uid t db,
   get_remaining_snd rl uid t db,
   fun T => nonExpiredCount_le_pairCount rl uid T db,
   fun ops hops => runOps_pairCount_le rl uid ops db hops⟩

/-- C2 witness: a call–check–query sequence from the empty store keeps the
pair count within the quota bound. -/
theorem C2_insertion_guarded_witness :
    pairCount ⟨2, 10, "argument_rate_limiter"⟩ "u"
        (runOps ⟨2, 10, "argument_rate_limiter"⟩ "u"
          [LimiterOp.opCall 0, LimiterOp.opCheck 1, LimiterOp.opRemaining 2] [])
      ≤ max (pairCount ⟨2, 10, "argument_rate_limiter"⟩ "u" []) 2 :=
  (C2_insertion_guarded ⟨2, 10, "argument_rate_limiter"⟩ "u" 0 []).2.2.2.2
    [LimiterOp.opCall 0, LimiterOp.opCheck 1, LimiterOp.opRemaining 2] (by decide)

/-- C3: the limiter is a sliding window.  Generally: if the pair holds exactly
`requests` distinct entries and precisely the one entry `e0` has aged out at
`t2` while every other entry is still inside the window, a call at `t2`
succeeds and leaves the pair count at `requests` again — one slot opened and
was consumed.  Concretely (`requests = 2`, `window = 10`): two accepted calls
at `t = 0`, a third call at `t = 5` is rejected with a 429 carrying the 5-second
wait, and the same call retried at `t = 10.1` succeeds. -/
theorem C3_sliding_window (rl : RateLimiter) (uid : String) (t2 : ℚ)
    (db : List RateLimitEntry) (e0 : RateLimitEntry)
    (hnd : (pairEntries rl uid db).Nodup)
    (hfull : (pairEntries rl uid db).length = rl.requests)
    (he0 : e0 ∈ pairEntries rl uid db)
    (hexp : instant e0.expiration_time ≤ t2)
    (hothers : ∀ e ∈ pairEntries rl uid db, e ≠ e0 → t2 < instant e.expiration_time) :
    ((call rl uid t2 db).1 = Except.ok ()
      ∧ pairCount rl uid (call rl uid t2 db).2 = rl.requests)
    ∧ (guardRun ⟨2, 10, "argument_rate_limiter"⟩ "u" [0, 0, 5, 101/10] []).1
        = [Except.ok (), Except.ok (),
           Except.error (LimiterError.httpException 429
             "Daily argument limit reached. You can submit again in 5 seconds."),
           Except.ok ()] := by
  constructor
  · have hreq : 1 ≤ rl.requests := by
      rw [← hfull]
      exact List.length_pos.mpr (List.ne_nil_of_mem he0)
    have hpfail : (fun e => !isExpiredAt e (get_current_datetime t2)) e0 = false := by
      simp only [isExpiredAt_get_current, Bool.not_eq_eq_eq_not, Bool.not_true]
      exact decide_eq_true hexp
    have hpother : ∀ b ∈ pairEntries rl uid db, b ≠ e0 →
        (fun e => !isExpiredAt e (get_current_datetime t2)) b = true := by
      intro b hb hbne
      simp only [isExpiredAt_get_current, Bool.not_eq_eq_eq_not, Bool.not_true]
      exact decide_eq_false (not_le.mpr (hothers b hb hbne))
    have hlen : (pairEntries rl uid (purgeDb rl uid (get_current_datetime t2) db)).length
        = rl.requests - 1 := by
      rw [pairEntries_purge,
        length_filter_of_unique_fail hnd he0 hpfail hpother, hfull]
    have hlt : (pairEntries rl uid (purgeDb rl uid (get_current_datetime t2) db)).length
        < rl.requests := by omega
    have hcall := call_of_lt rl uid t2 db hlt
    constructor
    · rw [hcall]
    · rw [hcall]
      show pairCount rl uid (purgeDb rl uid (get_current_datetime t2) db
          ++ [newEntry rl uid t2]) = rl.requests
      unfold pairCount
      rw [pairEntries_append]
      have h1 : pairEntries rl uid [newEntry rl uid t2] = [newEntry rl uid t2] := by
        simp [pairEntries, List.filter, matchesB_newEntry]
      rw [h1, List.length_append, hlen]
      simp only [List.length_singleton]
      omega
  · decide

/-- C3 witness: with quota 1 and window 10, the pair full with the single
entry written at `t = 0`, a retry at `t = 11` (entry aged out) succeeds and
the pair count is 1 again. -/
theorem C3_sliding_window_witness :
    (call ⟨1, 10, "t"⟩ "u" 11 [newEntry ⟨1, 10, "t"⟩ "u" 0]).1 = Except.ok ()
    ∧ pairCount ⟨1, 10, "t"⟩ "u"
        (call ⟨1, 10, "t"⟩ "u" 11 [newEntry ⟨1, 10, "t"⟩ "u" 0]).2 = 1 :=
  (C3_sliding_window ⟨1, 10, "t"⟩ "u" 11 [newEntry ⟨1, 10, "t"⟩ "u" 0]
    (newEntry ⟨1, 10, "t"⟩ "u" 0) (by decide) (by decide) (by decide) (by decide)
    (by decide)).1

/-- C4: `get_remaining_attempts` purges, then returns
`remaining = max(0, requests - count)`; the wait time is `none` whenever some
attempt remains, and when none remains it is the time from now until the
expiration of the entry with the earliest expiration among the surviving pair
entries (the oldest entry, under the data-model invariant
`expiration_time = timestamp + window`).  In particular, after `k < requests`
accepted calls inside one window and with no expiry elapsed, it returns
`(requests - k, none)`. -/
theorem C4_get_remaining_attempts (rl : RateLimiter) (uid : String) (now : ℚ)
    (db : List RateLimitEntry) (hreq : 1 ≤ rl.requests)
    (hinv : ∀ e ∈ pairEntries rl uid db,
      instant e.expiration_time = instant e.timestamp + rl.window) :
    ((get_remaining_attempts rl uid now db).1.1
        = rl.requests
          - (pairEntries rl uid (purgeDb rl uid (get_current_datetime now) db)).length)
    ∧ (0 < (get_remaining_attempts rl uid now db).1.1 →
        (get_remaining_attempts rl uid now db).1.2 = none)
    ∧ ((get_remaining_attempts rl uid now db).1.1 = 0 →
        ∃ e, e ∈ pairEntries rl uid (purgeDb rl uid (get_current_datetime now) db)
          ∧ (∀ e2 ∈ pairEntries rl uid (purgeDb rl uid (get_current_datetime now) db),
              instant e.expiration_time ≤ instant e2.expiration_time)
          ∧ (get_remaining_attempts rl uid now db).1.2
              = some (instant e.expiration_time - now))
    ∧ (∀ (ts : List ℚ) (tq : ℚ),
        pairEntries rl uid db = [] →
        (∀ s ∈ ts, s ≤ tq ∧ tq < s + rl.window) →
        ts.length < rl.requests →
        (get_remaining_attempts rl uid tq (guardRun rl uid ts db).2).1
          = (rl.requests - ts.length, none)) := by
  have hsub : ∀ e ∈ pairEntries rl uid (purgeDb rl uid (get_current_datetime now) db),
      e ∈ pairEntries rl uid db := by
    intro e he
    rw [pairEntries_purge] at he
    exact (List.mem_filter.mp he).1
  refine ⟨?_, ?_, ?_, ?_⟩
  · cases hv : pairEntries rl uid (purgeDb rl uid (get_current_datetime now) db) with
    | nil =>
        rw [get_remaining_of_pos rl uid now db (by rw [hv]; simpa using hreq)]
        simp [hv]
    | cons e es =>
        rcases Nat.eq_zero_or_pos (rl.requests - (e :: es).length) with h0 | hpos
        · rw [get_remaining_of_zero rl uid now db e es hv (by simpa using h0)]
          simp only [List.length_cons] at h0
          simp [h0]
        · rw [get_remaining_of_pos rl uid now db (by rw [hv]; exact hpos)]
          simp [hv]
  · intro hpos
    cases hv : pairEntries rl uid (purgeDb rl uid (get_current_datetime now) db) with
    | nil =>
        rw [get_remaining_of_pos rl uid now db (by rw [hv]; simpa using hreq)]
    | cons e es =>
        rcases Nat.eq_zero_or_pos (rl.requests - (e :: es).length) with h0 | hp
        · rw [get_remaining_of_zero rl uid now db e es hv (by simpa using h0)] at hpos
          simp at hpos
        · rw [get_remaining_of_pos rl uid now db (by rw [hv]; exact hp)]
  · intro hzero
    cases hv : pairEntries rl uid (purgeDb rl uid (get_current_datetime now) db) with
    | nil =>
        rw [get_remaining_of_pos rl uid now db (by rw [hv]; simpa using hreq)] at hzero
        simp only [hv, List.length_nil, Nat.sub_zero] at hzero
        omega
    | cons e es =>
        have hmem2 : oldestEntry e es
            ∈ pairEntries rl uid (purgeDb rl uid (get_current_datetime now) db) := by
          rw [hv]; exact oldestEntry_mem es e
        rcases Nat.eq_zero_or_pos (rl.requests - (e :: es).length) with h0 | hp
        · have hq := get_remaining_of_zero rl uid now db e es hv (by simpa using h0)
          refine ⟨oldestEntry e es, oldestEntry_mem es e, ?_, ?_⟩
          · intro e2 he2
            have he2p : e2 ∈ pairEntries rl uid
                (purgeDb rl uid (get_current_datetime now) db) := by
              rw [hv]; exact he2
            rw [hinv _ (hsub _ hmem2), hinv _ (hsub _ he2p)]
            have := oldestEntry_min es e e2 he2
            linarith
          · rw [hq]
            simp only [time_until_reset_eq, hinv _ (hsub _ hmem2)]
        · rw [get_remaining_of_pos rl uid now db (by rw [hv]; exact hp)] at hzero
          simp only [hv] at hzero
          omega
  · intro ts tq hempty hspan hlen
    obtain ⟨_, hcount, hfresh⟩ := guardRun_all_ok rl uid tq ts db hspan
      (by rw [hempty]; intro e he; cases he)
      (by rw [hempty]; simp; omega)
    have hpp := pairEntries_purge_of_fresh rl uid tq (guardRun rl uid ts db).2
      (fun e he => hfresh e he)
    have hcount2 : (pairEntries rl uid
        (purgeDb rl uid (get_current_datetime tq) (guardRun rl uid ts db).2)).length
        = ts.length := by
      rw [hpp, hcount, hempty]
      simp
    have := get_remaining_of_pos rl uid tq (guardRun rl uid ts db).2
      (by rw [hcount2]; omega)
    rw [this, hcount2]

/-- C4 witness: quota 2, one accepted call at `t = 0`, queried at `t = 3`:
the remaining count equals `requests` minus the surviving pair count. -/
theorem C4_get_remaining_attempts_witness :
    (get_remaining_attempts ⟨2, 10, "t"⟩ "u" 3 [newEntry ⟨2, 10, "t"⟩ "u" 0]).1.1
      = RateLimiter.requests ⟨2, 10, "t"⟩
        - (pairEntries ⟨2, 10, "t"⟩ "u"
            (purgeDb ⟨2, 10, "t"⟩ "u" (get_current_datetime 3)
              [newEntry ⟨2, 10, "t"⟩ "u" 0])).length :=
  (C4_get_remaining_attempts ⟨2, 10, "t"⟩ "u" 3 [newEntry ⟨2, 10, "t"⟩ "u" 0]
    (by decide) (by decide)).1

/-- C5 counterexample: `register_usage` performs no purge.  An entry of the
pair that is expired at `t = 100` is still present in the store after
`register_usage` runs at `t = 100`, refuting the claim that every write path
deletes expired entries of the pair. -/
theorem C5_counterexample_register_usage_keeps_expired :
    matchesB ⟨10, 86400, "argument_rate_limiter"⟩ "u"
        ⟨"u", ⟨0, some 19800⟩, "argument_rate_limiter", ⟨0, some 19800⟩⟩ = true
    ∧ isExpiredAt ⟨"u", ⟨0, some 19800⟩, "argument_rate_limiter", ⟨0, some 19800⟩⟩
        (get_current_datetime 100) = true
    ∧ (⟨"u", ⟨0, some 19800⟩, "argument_rate_limiter", ⟨0, some 19800⟩⟩ : RateLimitEntry)
        ∈ register_usage ⟨10, 86400, "argument_rate_limiter"⟩ "u" 100
            [⟨"u", ⟨0, some 19800⟩, "argument_rate_limiter", ⟨0, some 19800⟩⟩] := by
  decide

/-- C5 (amended): the three checking paths (`get_remaining_attempts`,
`check_only`, `__call__`) delete the expired pair entries before counting, so
an expired stored entry never counts toward remaining attempts and is removed
as a side effect of those queries; `register_usage`, by contrast, purges
nothing — it only appends one new entry. -/
theorem C5_purge_on_query_paths (rl : RateLimiter) (uid : String) (now : ℚ)
    (db : List RateLimitEntry) (e : RateLimitEntry) (hw : 0 < rl.window)
    (he : e ∈ db) (hm : matchesB rl uid e = true)
    (hx : isExpiredAt e (get_current_datetime now) = true) :
    e ∉ (get_remaining_attempts rl uid now db).2
    ∧ e ∉ (check_only rl uid now db).2
    ∧ e ∉ (call rl uid now db).2
    ∧ (get_remaining_attempts rl uid now db).1
        = (get_remaining_attempts rl uid now (db.erase e)).1
    ∧ (check_only rl uid now db).1 = (check_only rl uid now (db.erase e)).1
    ∧ (call rl uid now db).1 = (call rl uid now (db.erase e)).1
    ∧ register_usage rl uid now db = db ++ [newEntry rl uid now] := by
  have hkeep : (!(matchesB rl uid e && isExpiredAt e (get_current_datetime now)))
      = false := by
    rw [hm, hx]
    rfl
  have hnp : e ∉ purgeDb rl uid (get_current_datetime now) db := by
    intro hmem
    have := (List.mem_filter.mp hmem).2
    rw [hkeep] at this
    cases this
  have hne : e ≠ newEntry rl uid now := by
    intro hEq
    rw [hEq, isExpiredAt_get_current, instant_newEntry_expiration] at hx
    have : now + rl.window ≤ now := of_decide_eq_true hx
    linarith
  have herase : purgeDb rl uid (get_current_datetime now) (db.erase e)
      = purgeDb rl uid (get_current_datetime now) db :=
    @filter_erase_of_neg RateLimitEntry _
      (fun x => !(matchesB rl uid x && isExpiredAt x (get_current_datetime now)))
      e hkeep db
  refine ⟨?_, ?_, ?_, ?_, ?_, ?_, rfl⟩
  · rw [get_remaining_snd]; exact hnp
  · rw [check_only_snd]; exact hnp
  · rcases call_snd_cases rl uid now db with h | ⟨h, _⟩
    · rw [h]; exact hnp
    · rw [h]
      intro hmem
      rcases List.mem_append.mp hmem with h1 | h1
      · exact hnp h1
      · exact hne (List.mem_singleton.mp h1)
  · exact get_remaining_fst_of_purge_eq rl uid now db (db.erase e) herase.symm
  · exact check_only_fst_of_purge_eq rl uid now db (db.erase e) herase.symm
  · exact call_fst_of_purge_eq rl uid now db (db.erase e) herase.symm

/-- C5 witness: a naive-timestamp entry expired at `t = 6` is gone from the
store after a `__call__` at `t = 6`. -/
theorem C5_purge_on_query_paths_witness :
    (⟨"u", ⟨0, none⟩, "t", ⟨5, none⟩⟩ : RateLimitEntry)
      ∉ (call ⟨1, 10, "t"⟩ "u" 6 [⟨"u", ⟨0, none⟩, "t", ⟨5, none⟩⟩]).2 :=
  (C5_purge_on_query_paths ⟨1, 10, "t"⟩ "u" 6 [⟨"u", ⟨0, none⟩, "t", ⟨5, none⟩⟩]
    ⟨"u", ⟨0, none⟩, "t", ⟨5, none⟩⟩ (by decide) (by decide) (by decide)
    (by decide)).2.2.1

/-- C6: `check_only` writes nothing on success — when the purged pair count
is under quota it returns the user and the store is exactly the purged store;
and any number of `check_only` calls, with no `register_usage` in between,
leaves the remaining quota reported by `get_remaining_attempts` (queried at
any time at or after those calls) unchanged. -/
theorem C6_check_only_write_free (rl : RateLimiter) (uid : String) (now : ℚ)
    (db : List RateLimitEntry) :
    ((pairEntries rl uid (purgeDb rl uid (get_current_datetime now) db)).length
        < rl.requests →
      check_only rl uid now db
        = (Except.ok uid, purgeDb rl uid (get_current_datetime now) db))
    ∧ (∀ (ts : List ℚ) (t : ℚ), (∀ s ∈ ts, s ≤ t) →
        (get_remaining_attempts rl uid t (checkOnlyRun rl uid ts db)).1
          = (get_remaining_attempts rl uid t db).1) := by
  constructor
  · exact check_only_of_lt rl uid now db
  · intro ts t hts
    exact get_remaining_fst_of_purge_eq rl uid t _ db
      (checkOnlyRun_purge rl uid t ts db hts)

/-- C6 witness: two `check_only` calls at `t = 0` and `t = 1` do not change
what `get_remaining_attempts` reports at `t = 2`. -/
theorem C6_check_only_write_free_witness :
    (get_remaining_attempts ⟨2, 10, "argument_rate_limiter"⟩ "u" 2
        (checkOnlyRun ⟨2, 10, "argument_rate_limiter"⟩ "u" [0, 1]
          [newEntry ⟨2, 10, "argument_rate_limiter"⟩ "u" 0])).1
      = (get_remaining_attempts ⟨2, 10, "argument_rate_limiter"⟩ "u" 2
          [newEntry ⟨2, 10, "argument_rate_limiter"⟩ "u" 0]).1 :=
  (C6_check_only_write_free ⟨2, 10, "argument_rate_limiter"⟩ "u" 0
    [newEntry ⟨2, 10, "argument_rate_limiter"⟩ "u" 0]).2 [0, 1] 2 (by decide)

/-- C7: every entry the limiter persists satisfies
`expiration_time = timestamp + window` with `timestamp` the insertion instant:
`register_usage` appends exactly one such entry, and the single-call guard
appends the same entry on its success path. -/
theorem C7_entry_expiration_invariant (rl : RateLimiter) (uid : String)
    (now : ℚ) (db : List RateLimitEntry) :
    register_usage rl uid now db = db ++ [newEntry rl uid now]
    ∧ (newEntry rl uid now).timestamp = get_current_datetime now
    ∧ instant (newEntry rl uid now).timestamp = now
    ∧ instant (newEntry rl uid now).expiration_time
        = instant (newEntry rl uid now).timestamp + rl.window
    ∧ ((pairEntries rl uid (purgeDb rl uid (get_current_datetime now) db)).length
          < rl.requests →
        call rl uid now db
          = (Except.ok (),
             purgeDb rl uid (get_current_datetime now) db ++ [newEntry rl uid now])) := by
  refine ⟨rfl, rfl, instant_newEntry_timestamp rl uid now, ?_,
    call_of_lt rl uid now db⟩
  rw [instant_newEntry_expiration, instant_newEntry_timestamp]

/-- C7 witness: with quota 3 and window 7 the success path of the guard at
`t = 0` appends the freshly-stamped entry. -/
theorem C7_entry_expiration_invariant_witness :
    call ⟨3, 7, "case_generation_rate_limiter"⟩ "u" 0 []
      = (Except.ok (),
         purgeDb ⟨3, 7, "case_generation_rate_limiter"⟩ "u" (get_current_datetime 0) []
           ++ [newEntry ⟨3, 7, "case_generation_rate_limiter"⟩ "u" 0]) :=
  (C7_entry_expiration_invariant ⟨3, 7, "case_generation_rate_limiter"⟩ "u" 0
    []).2.2.2.2 (by decide)

/-- C8: `ensure_ist_timezone` normalizes a stored timestamp to the reference
zone before the wait-time subtraction: the result is always IST-aware, a naive
input is localized as UTC (its instant is its wall-clock reading) and an aware
input is converted (its instant is preserved).  Consequently the wait time is
positive for a non-expired entry satisfying the data-model invariant, the wait
times of two timestamps are ordered as their instants, and a naive timestamp
and an aware timestamp in another zone denoting the same instant produce the
same wait time. -/
theorem C8_timezone_normalization (rl : RateLimiter) (e : RateLimitEntry)
    (d d1 d2 : DTime) (nowq w off : ℚ) :
    (ensure_ist_timezone d).tz = some IST_OFFSET
    ∧ instant (ensure_ist_timezone d) = instant d
    ∧ instant (ensure_ist_timezone ⟨w, none⟩) = w
    ∧ (instant e.expiration_time = instant e.timestamp + rl.window →
        isExpiredAt e (get_current_datetime nowq) = false →
        0 < time_until_reset rl e.timestamp (get_current_datetime nowq))
    ∧ (instant d1 ≤ instant d2 →
        time_until_reset rl d1 (get_current_datetime nowq)
          ≤ time_until_reset rl d2 (get_current_datetime nowq))
    ∧ time_until_reset rl ⟨w, none⟩ (get_current_datetime nowq)
        = time_until_reset rl ⟨w + off, some off⟩ (get_current_datetime nowq) := by
  refine ⟨rfl, instant_ensure_ist d, ?_, ?_, ?_, ?_⟩
  · rw [instant_ensure_ist]
    simp [instant]
  · intro hinv hexp
    rw [time_until_reset_eq]
    rw [isExpiredAt_get_current] at hexp
    have hlt : ¬ instant e.expiration_time ≤ nowq := of_decide_eq_false hexp
    rw [hinv] at hlt
    linarith [not_le.mp hlt]
  · intro h12
    rw [time_until_reset_eq, time_until_reset_eq]
    linarith
  · rw [time_until_reset_eq, time_until_reset_eq]
    simp [instant]

/-- C8 witness: at `t = 30`, the still-valid entry written at `t = 0` with a
60-second window has a positive wait time. -/
theorem C8_timezone_normalization_witness :
    0 < time_until_reset ⟨1, 60, "t"⟩ (newEntry ⟨1, 60, "t"⟩ "u" 0).timestamp
        (get_current_datetime 30) :=
  (C8_timezone_normalization ⟨1, 60, "t"⟩ (newEntry ⟨1, 60, "t"⟩ "u" 0)
    ⟨0, none⟩ ⟨0, none⟩ ⟨0, none⟩ 30 0 0).2.2.2.1 (by decide) (by decide)

/-- C9: every find, delete and insert of a limiter is restricted to its own
`rate_limiter_type` tag: each of the four operations leaves the stored entries
of any differently-tagged pair exactly unchanged, and therefore leaves the
remaining quota and check outcome of any differently-tagged limiter unchanged
for every user. -/
theorem C9_type_independence (rl rl2 : RateLimiter)
    (hty : rl2.rate_limiter_type ≠ rl.rate_limiter_type)
    (uid uid2 : String) (now now2 : ℚ) (db : List RateLimitEntry) :
    pairEntries rl2 uid2 (call rl uid now db).2 = pairEntries rl2 uid2 db
    ∧ pairEntries rl2 uid2 (check_only rl uid now db).2 = pairEntries rl2 uid2 db
    ∧ pairEntries rl2 uid2 (get_remaining_attempts rl uid now db).2
        = pairEntries rl2 uid2 db
    ∧ pairEntries rl2 uid2 (register_usage rl uid now db) = pairEntries rl2 uid2 db
    ∧ (get_remaining_attempts rl2 uid2 now2 (call rl uid now db).2).1
        = (get_remaining_attempts rl2 uid2 now2 db).1
    ∧ (get_remaining_attempts rl2 uid2 now2 (register_usage rl uid now db)).1
        = (get_remaining_attempts rl2 uid2 now2 db).1
    ∧ (check_only rl2 uid2 now2 (call rl uid now db).2).1
        = (check_only rl2 uid2 now2 db).1 := by
  have hcall : pairEntries rl2 uid2 (call rl uid now db).2 = pairEntries rl2 uid2 db := by
    rcases call_snd_cases rl uid now db with h | ⟨h, _⟩
    · rw [h, pairEntries_purge_other rl rl2 uid uid2 _ db hty]
    · rw [h, pairEntries_append_newEntry_other rl rl2 uid uid2 now _ hty,
        pairEntries_purge_other rl rl2 uid uid2 _ db hty]
  have hreg : pairEntries rl2 uid2 (register_usage rl uid now db)
      = pairEntries rl2 uid2 db :=
    pairEntries_append_newEntry_other rl rl2 uid uid2 now db hty
  refine ⟨hcall, ?_, ?_, hreg, ?_, ?_, ?_⟩
  · rw [check_only_snd, pairEntries_purge_other rl rl2 uid uid2 _ db hty]
  · rw [get_remaining_snd, pairEntries_purge_other rl rl2 uid uid2 _ db hty]
  · exact get_remaining_fst_of_pair_eq rl2 uid2 now2 _ db hcall
  · exact get_remaining_fst_of_pair_eq rl2 uid2 now2 _ db hreg
  · exact check_only_fst_of_pair_eq rl2 uid2 now2 _ db hcall

/-- C9 witness: exhausting the argument limiter (quota 1) does not change
what the case-generation limiter reports for the same user. -/
theorem C9_type_independence_witness :
    (get_remaining_attempts ⟨5, 86400, "case_generation_rate_limiter"⟩ "u" 0
        (call ⟨1, 86400, "argument_rate_limiter"⟩ "u" 0
          [newEntry ⟨1, 86400, "argument_rate_limiter"⟩ "u" 0]).2).1
      = (get_remaining_attempts ⟨5, 86400, "case_generation_rate_limiter"⟩ "u" 0
          [newEntry ⟨1, 86400, "argument_rate_limiter"⟩ "u" 0]).1 :=
  (C9_type_independence ⟨1, 86400, "argument_rate_limiter"⟩
    ⟨5, 86400, "case_generation_rate_limiter"⟩ (by decide) "u" "u" 0 0
    [newEntry ⟨1, 86400, "argument_rate_limiter"⟩ "u" 0]).2.2.2.2.1

/-- C10: with `requests = 0` and no stored pair entries, `__call__` and
`check_only` reach the quota-exceeded branch with an empty entry list and fail
with the `ValueError` of `min` on an empty sequence instead of the HTTP 429,
while `get_remaining_attempts` returns `(0, none)` because its wait-time
branch additionally requires a non-empty entry list; with `requests ≥ 1` the
empty-minimum failure is unreachable. -/
theorem C10_zero_quota_empty_min (window : ℚ) (ty uid : String) (now : ℚ)
    (db : List RateLimitEntry)
    (hempty : pairEntries ⟨0, window, ty⟩ uid db = []) :
    call ⟨0, window, ty⟩ uid now db
      = (Except.error LimiterError.valueErrorEmptyMin,
         purgeDb ⟨0, window, ty⟩ uid (get_current_datetime now) db)
    ∧ check_only ⟨0, window, ty⟩ uid now db
      = (Except.error LimiterError.valueErrorEmptyMin,
         purgeDb ⟨0, window, ty⟩ uid (get_current_datetime now) db)
    ∧ (get_remaining_attempts ⟨0, window, ty⟩ uid now db).1 = (0, none)
    ∧ (∀ (rl : RateLimiter) (uid2 : String) (t : ℚ) (db2 : List RateLimitEntry),
        1 ≤ rl.requests →
        (call rl uid2 t db2).1 ≠ Except.error LimiterError.valueErrorEmptyMin
        ∧ (check_only rl uid2 t db2).1
            ≠ Except.error LimiterError.valueErrorEmptyMin) := by
  have hpe : pairEntries ⟨0, window, ty⟩ uid
      (purgeDb ⟨0, window, ty⟩ uid (get_current_datetime now) db) = [] := by
    rw [pairEntries_purge, hempty]
    rfl
  refine ⟨call_of_empty _ uid now db hpe rfl,
    check_only_of_empty _ uid now db hpe rfl, ?_, ?_⟩
  · simp only [get_remaining_attempts, hpe]
    rfl
  · intro rl uid2 t db2 hreq
    constructor
    · by_cases hge : rl.requests
          ≤ (pairEntries rl uid2 (purgeDb rl uid2 (get_current_datetime t) db2)).length
      · cases hv : pairEntries rl uid2 (purgeDb rl uid2 (get_current_datetime t) db2) with
        | nil =>
            rw [hv] at hge
            simp only [List.length_nil, Nat.le_zero] at hge
            omega
        | cons e es =>
            rw [call_of_ge rl uid2 t db2 e es hv (by rw [hv] at hge; simpa using hge)]
            simp
      · rw [call_of_lt rl uid2 t db2 (not_le.mp hge)]
        simp
    · by_cases hge : rl.requests
          ≤ (pairEntries rl uid2 (purgeDb rl uid2 (get_current_datetime t) db2)).length
      · cases hv : pairEntries rl uid2 (purgeDb rl uid2 (get_current_datetime t) db2) with
        | nil =>
            rw [hv] at hge
            simp only [List.length_nil, Nat.le_zero] at hge
            omega
        | cons e es =>
            rw [check_only_of_ge rl uid2 t db2 e es hv
              (by rw [hv] at hge; simpa using hge)]
            simp
      · rw [check_only_of_lt rl uid2 t db2 (not_le.mp hge)]
        simp

/-- C10 witness: a zero-quota limiter on an empty store raises the
empty-minimum `ValueError`, not the HTTP 429. -/
theorem C10_zero_quota_empty_min_witness :
    call ⟨0, 86400, "case_generation_rate_limiter"⟩ "u" 0 []
      = (Except.error LimiterError.valueErrorEmptyMin,
         purgeDb ⟨0, 86400, "case_generation_rate_limiter"⟩ "u"
           (get_current_datetime 0) []) :=
  (C10_zero_quota_empty_min 86400 "case_generation_rate_limiter" "u" 0 [] rfl).1

end AICourtroom
